import Mathlib

/-!
Shallow embedding of the visual calibration pipeline of the `mltest`
repository (`src/backend/services/visual_service.py` together with
`src/backend/models/dynamic_maml.py`), and proofs of the specification
claims about it.

Modelling conventions:
* Python floats and the exact rational arithmetic of `statistics` are
  modelled by `ℚ`; one-dimensional tensors by `List ℚ`.
* `torch` elementwise operations are `List.zipWith` / `List.map`;
  tensors in a batch always have equal shape, so the truncation of
  `zipWith` on unequal lengths is never exercised on real runs.
* Fallible code returns `Except String`.
-/

namespace VisualCalibration

/-- Componentwise sum of two vectors (`torch` elementwise `+`). -/
def vecAdd (a b : List ℚ) : List ℚ := List.zipWith (· + ·) a b

/-- Scalar multiple of a vector (`torch` broadcast `*`). -/
def vecSmul (c : ℚ) (v : List ℚ) : List ℚ := v.map (fun a => c * a)

/-- Coordinate `j` of a vector, `0` out of range. -/
def nth (v : List ℚ) (j : ℕ) : ℚ := v.getD j 0

/-- Sum of a batch of equally shaped vectors, as in
`torch.stack(vs).sum(dim=0)`. -/
def stackSum : List (List ℚ) → List ℚ
  | [] => []
  | v :: vs => match vs with
    | [] => v
    | _ => vecAdd v (stackSum vs)

/-- Mean over a batch of equally shaped vectors, as in
`torch.stack(vs).mean(dim=0)`. -/
def stackMean (vs : List (List ℚ)) : List ℚ :=
  (stackSum vs).map (fun a => a / (vs.length : ℚ))

/-- Exact model of `statistics.variance` (sample variance, denominator
`n - 1`; the Python library computes exactly on integer data before its
final float conversion). -/
def variance (xs : List ℤ) : ℚ :=
  (xs.map (fun x => ((x : ℚ) - (xs.map (fun y => (y : ℚ))).sum / (xs.length : ℚ)) ^ 2)).sum
    / ((xs.length : ℚ) - 1)

/-- Python rounding to the nearest integer, ties to even (`round`),
modelled exactly on `ℚ` (`Rat.floor` is used so that the definition
evaluates by kernel reduction). -/
def roundHalfEven (q : ℚ) : ℤ :=
  if q - (Rat.floor q : ℚ) < 1 / 2 then Rat.floor q
  else if 1 / 2 < q - (Rat.floor q : ℚ) then Rat.floor q + 1
  else if Rat.floor q % 2 = 0 then Rat.floor q else Rat.floor q + 1

/-- Python `round(q, 2)`. -/
def round2 (q : ℚ) : ℚ := (roundHalfEven (q * 100) : ℚ) / 100

/-- Embedding of `VisualService._calculate_confidence`
(`visual_service.py`, lines 279-292). -/
def calculate_confidence (ratings : List ℤ) : ℚ :=
  if ratings.length < 3 then 1 / 2
  else round2 (min (variance ratings / 2) 1)

theorem ratFloor_eq_floor (q : ℚ) : (Rat.floor q : ℤ) = ⌊q⌋ := by
  rw [Rat.floor_def', Rat.floor_def]

theorem floor_le_roundHalfEven (q : ℚ) : ⌊q⌋ ≤ roundHalfEven q := by
  simp only [roundHalfEven, ratFloor_eq_floor]
  split
  · exact le_refl _
  · split
    · omega
    · split <;> omega

theorem roundHalfEven_le_ceil (q : ℚ) : roundHalfEven q ≤ ⌈q⌉ := by
  simp only [roundHalfEven, ratFloor_eq_floor]
  split
  · exact Int.floor_le_ceil q
  · next h1 =>
    have hfr : (1 : ℚ) / 2 ≤ q - (⌊q⌋ : ℚ) := le_of_not_lt h1
    have hq : (⌊q⌋ : ℚ) < q := by linarith
    have hlt : ⌊q⌋ < ⌈q⌉ := by
      have hqc : (⌊q⌋ : ℚ) < (⌈q⌉ : ℚ) := lt_of_lt_of_le hq (Int.le_ceil q)
      exact_mod_cast hqc
    split
    · omega
    · split <;> omega

theorem roundHalfEven_nonneg (q : ℚ) (h : 0 ≤ q) : 0 ≤ roundHalfEven q := by
  have h0 : 0 ≤ ⌊q⌋ := Int.floor_nonneg.mpr h
  exact le_trans h0 (floor_le_roundHalfEven q)

theorem round2_nonneg (q : ℚ) (h : 0 ≤ q) : 0 ≤ round2 q := by
  unfold round2
  have : (0 : ℚ) ≤ (roundHalfEven (q * 100) : ℚ) := by
    exact_mod_cast roundHalfEven_nonneg (q * 100) (by positivity)
  positivity

theorem round2_le_one (q : ℚ) (h : q ≤ 1) : round2 q ≤ 1 := by
  unfold round2
  have h100 : roundHalfEven (q * 100) ≤ 100 := by
    have hc : ⌈q * 100⌉ ≤ 100 := by
      have : (q * 100 : ℚ) ≤ (100 : ℚ) := by linarith
      calc ⌈q * 100⌉ ≤ ⌈(100 : ℚ)⌉ := Int.ceil_le_ceil this
        _ = 100 := by norm_num
    exact le_trans (roundHalfEven_le_ceil _) hc
  have : (roundHalfEven (q * 100) : ℚ) ≤ 100 := by exact_mod_cast h100
  linarith

theorem variance_nonneg (xs : List ℤ) (h : 3 ≤ xs.length) : 0 ≤ variance xs := by
  unfold variance
  apply div_nonneg
  · apply List.sum_nonneg
    intro x hx
    simp only [List.mem_map] at hx
    obtain ⟨y, _, rfl⟩ := hx
    positivity
  · have : (3 : ℚ) ≤ (xs.length : ℚ) := by exact_mod_cast h
    linarith

theorem roundHalfEven_intCast (n : ℤ) : roundHalfEven (n : ℚ) = n := by
  simp only [roundHalfEven, ratFloor_eq_floor, Int.floor_intCast, sub_self]
  norm_num

theorem round2_zero : round2 0 = 0 := by
  have h : ((0 : ℚ) * 100) = ((0 : ℤ) : ℚ) := by norm_num
  rw [round2, h, roundHalfEven_intCast]
  norm_num

theorem round2_one : round2 1 = 1 := by
  have h : ((1 : ℚ) * 100) = ((100 : ℤ) : ℚ) := by norm_num
  rw [round2, h, roundHalfEven_intCast]
  norm_num

theorem confidence_flat_eval : calculate_confidence [3, 3, 3, 3, 3, 3] = 0 := by
  have hv : variance [3, 3, 3, 3, 3, 3] = 0 := by norm_num [variance]
  have hm : min (variance [3, 3, 3, 3, 3, 3] / 2) 1 = 0 := by rw [hv]; norm_num
  simp [calculate_confidence, hm, round2_zero]

theorem confidence_bimodal_eval : calculate_confidence [1, 1, 1, 5, 5, 5] = 1 := by
  have hv : variance [1, 1, 1, 5, 5, 5] = 24 / 5 := by norm_num [variance]
  have hm : min (variance [1, 1, 1, 5, 5, 5] / 2) 1 = 1 := by rw [hv]; norm_num
  simp [calculate_confidence, hm, round2_one]

theorem calculate_confidence_mem_unit (ratings : List ℤ) :
    0 ≤ calculate_confidence ratings ∧ calculate_confidence ratings ≤ 1 := by
  unfold calculate_confidence
  split
  · norm_num
  · have h3 : 3 ≤ ratings.length := le_of_not_lt (by assumption)
    constructor
    · apply round2_nonneg
      exact le_min (by have := variance_nonneg ratings h3; linarith) (by norm_num)
    · exact round2_le_one _ (min_le_right _ _)

/-- C1: with fewer than 3 ratings the calibration confidence is exactly
`0.5`; otherwise it is `min(variance(ratings)/2, 1)` rounded to 2
decimals; in every case it lies in `[0, 1]`; and ratings
`[1,1,1,5,5,5]` give a strictly higher confidence than
`[3,3,3,3,3,3]`. -/
theorem C1_calibration_confidence (ratings : List ℤ) :
    (ratings.length < 3 → calculate_confidence ratings = 1 / 2) ∧
    (3 ≤ ratings.length →
      calculate_confidence ratings = round2 (min (variance ratings / 2) 1)) ∧
    (0 ≤ calculate_confidence ratings ∧ calculate_confidence ratings ≤ 1) ∧
    calculate_confidence [3, 3, 3, 3, 3, 3] < calculate_confidence [1, 1, 1, 5, 5, 5] := by
  refine ⟨fun h => by simp [calculate_confidence, h], fun h => ?_,
    calculate_confidence_mem_unit ratings, ?_⟩
  · simp [calculate_confidence, Nat.not_lt.mpr h]
  · rw [confidence_flat_eval, confidence_bimodal_eval]; norm_num

/-- Witness for C1 at the concrete inputs `[4, 5]` (fewer than 3
ratings) and `[1, 1, 1, 5, 5, 5]`. -/
theorem C1_calibration_confidence_witness :
    (([4, 5] : List ℤ).length < 3 ∧ calculate_confidence [4, 5] = 1 / 2) ∧
    (3 ≤ ([1, 1, 1, 5, 5, 5] : List ℤ).length ∧
      calculate_confidence [1, 1, 1, 5, 5, 5] =
        round2 (min (variance [1, 1, 1, 5, 5, 5] / 2) 1)) :=
  ⟨⟨by decide, (C1_calibration_confidence [4, 5]).1 (by decide)⟩,
   ⟨by decide, (C1_calibration_confidence [1, 1, 1, 5, 5, 5]).2.1 (by decide)⟩⟩

/-! ## The Parameter Generator (`src/backend/models/dynamic_maml.py`) -/

/-- Dot product of two vectors. -/
def dot (a b : List ℚ) : ℚ := (List.zipWith (· * ·) a b).sum

/-- Weights and bias of one `nn.Linear` layer; `weight` holds one row
per output feature. -/
structure LinearLayer where
  weight : List (List ℚ)
  bias : List ℚ

/-- Application of an `nn.Linear` layer: `x ↦ W x + b`. -/
def LinearLayer.apply (l : LinearLayer) (x : List ℚ) : List ℚ :=
  List.zipWith (fun row b => dot row x + b) l.weight l.bias

/-- Elementwise `nn.ReLU`. -/
def relu (v : List ℚ) : List ℚ := v.map (fun a => max a 0)

/-- Embedding of `DynamicLearner` (`dynamic_maml.py`): two dense layers
with a ReLU between them; `lin1 : in_dim → hidden_dim`,
`lin2 : hidden_dim → in_dim * out_dim + out_dim`. -/
structure DynamicLearner where
  in_dim : ℕ
  out_dim : ℕ
  lin1 : LinearLayer
  lin2 : LinearLayer

/-- The `generator` sequential module of `DynamicLearner`. -/
def DynamicLearner.generator (L : DynamicLearner) (x : List ℚ) : List ℚ :=
  L.lin2.apply (relu (L.lin1.apply x))

/-- Embedding of `DynamicLearner.get_user_weights` (`dynamic_maml.py`,
lines 52-64): run the generator and keep `params[0, :weight_num]`,
i.e. the first `in_dim` entries; the generated bias
(`params[0, weight_num:]`) is discarded. -/
def DynamicLearner.get_user_weights (L : DynamicLearner) (x : List ℚ) : List ℚ :=
  (L.generator x).take L.in_dim

/-- Shape discipline imposed by the constructor of `DynamicLearner`:
`nn.Linear(hidden_dim, in_dim * out_dim + out_dim)` gives `lin2` exactly
`in_dim * out_dim + out_dim` rows and biases. -/
def DynamicLearner.wellFormed (L : DynamicLearner) : Prop :=
  L.in_dim = 512 ∧ L.out_dim = 1 ∧
  L.lin2.weight.length = L.in_dim * L.out_dim + L.out_dim ∧
  L.lin2.bias.length = L.in_dim * L.out_dim + L.out_dim

/-! ## The Demo Fallback (`VisualService._generate_demo_features`) -/

/-- Seed computation `hash(image_id) % (2**32)` of
`_generate_demo_features` (`visual_service.py`, line 147).  CPython
salts `hash` on `str` with a per-process random value (PEP 456 /
`PYTHONHASHSEED`), so the hash is modelled as a per-process function
parameter.  Python `%` with a positive modulus agrees with `Int.emod`. -/
def demoSeed (pyHash : String → ℤ) (image_id : String) : ℤ :=
  pyHash image_id % (2 ^ 32)

/-- Embedding of `VisualService._generate_demo_features`
(`visual_service.py`, lines 133-156).  `randn` models the composite
`torch.manual_seed(seed); torch.randn(512)` followed by `F.normalize`:
a fixed deterministic function of the seed.  The `rating` argument is
accepted but never used, exactly as in the source. -/
def generate_demo_features (randn : ℤ → List ℚ) (pyHash : String → ℤ)
    (image_id : String) (rating : ℤ) : List ℚ :=
  randn (demoSeed pyHash image_id)

/-! ## The calibration pipeline (`VisualService.calibrate_user`) -/

/-- Rating-to-weight conversion `(rating - 1) / 4.0`
(`visual_service.py`, line 224). -/
def weight (r : ℤ) : ℚ := ((r : ℚ) - 1) / 4

/-- The per-image weights, in submission order. -/
def weights_of (ratings : List (String × ℤ)) : List ℚ :=
  ratings.map (fun p => weight p.2)

/-- The resolved feature vectors, one per rated image, in submission
order.  `feat` is the image-id-to-feature resolution (real extraction
or demo fallback), a pure function in this embedding. -/
def features_of (feat : String → ℤ → List ℚ) (ratings : List (String × ℤ)) :
    List (List ℚ) :=
  ratings.map (fun p => feat p.1 p.2)

/-- Features of the images rated `>= 4` (`liked_features`). -/
def liked_of (feat : String → ℤ → List ℚ) (ratings : List (String × ℤ)) :
    List (List ℚ) :=
  (ratings.filter (fun p => 4 ≤ p.2)).map (fun p => feat p.1 p.2)

/-- Features of the images rated `<= 2` (`disliked_features`). -/
def disliked_of (feat : String → ℤ → List ℚ) (ratings : List (String × ℤ)) :
    List (List ℚ) :=
  (ratings.filter (fun p => p.2 ≤ 2)).map (fun p => feat p.1 p.2)

/-- The division guard `1e-8` of line 230, as an exact rational. -/
def eps : ℚ := 1 / 100000000

/-- The aggregated preference signal (`visual_service.py`, lines
219-230): weighted sum of every rated image's features divided by the
sum of the weights plus `eps`. -/
def aggregate (feat : String → ℤ → List ℚ) (ratings : List (String × ℤ)) :
    List ℚ :=
  (stackSum (List.zipWith vecSmul (weights_of ratings) (features_of feat ratings))).map
    (fun a => a / ((weights_of ratings).sum + eps))

/-- The `ideal_vector` computation (`visual_service.py`, lines 237-241
and 268): centroid of the liked features, or the empty list when no
image was rated `>= 4`. -/
def ideal_vector_of (feat : String → ℤ → List ℚ) (ratings : List (String × ℤ)) :
    List ℚ :=
  if (liked_of feat ratings).isEmpty then [] else stackMean (liked_of feat ratings)

/-- Embedding of `VisualService._detect_triggers` (placeholder lists). -/
def detect_triggers (liked disliked : List (List ℚ)) : List String × List String :=
  (["placeholder_positive_trait"], ["placeholder_negative_trait"])

/-- The `meta` block of the persisted artifact. -/
structure MetaBlock where
  user_id : String
  gender : String
  preference_target : String
  calibration_timestamp : String
  images_rated : ℕ
deriving DecidableEq

/-- The `self_analysis` block of the persisted artifact. -/
structure SelfAnalysis where
  embedding_vector : List ℚ
  facial_landmarks : List String
  style_presentation : List String
  vibe_tags : List String
deriving DecidableEq

/-- The `preference_model` block of the persisted artifact. -/
structure PreferenceModel where
  ideal_vector : List ℚ
  mandatory_traits : List String
  negative_traits : List String
  calibration_confidence : ℚ
deriving DecidableEq

/-- The `p1_visual_vector` artifact. -/
structure VectorData where
  meta : MetaBlock
  self_analysis : SelfAnalysis
  preference_model : PreferenceModel
deriving DecidableEq

/-- Embedding of `VisualService.calibrate_user` (`visual_service.py`,
lines 158-277), up to and excluding the final `save_vector` call (the
persistence step is `calibrate_and_save` below).  The dict of ratings
is an association list in iteration order with distinct keys; `now` is
the value of `datetime.utcnow().isoformat() + "Z"`. -/
def calibrate_user (L : DynamicLearner) (feat : String → ℤ → List ℚ)
    (now : String) (user_id : String) (ratings : List (String × ℤ))
    (gender preference_target : Option String) : Except String VectorData :=
  if ratings.isEmpty then Except.error "No ratings provided for calibration"
  else if (features_of feat ratings).isEmpty then
    Except.error "No valid ratings for calibration"
  else
    Except.ok
      { meta :=
          { user_id := user_id
            gender := gender.getD "unspecified"
            preference_target := preference_target.getD "unspecified"
            calibration_timestamp := now
            images_rated := ratings.length }
        self_analysis :=
          { embedding_vector := L.get_user_weights (aggregate feat ratings)
            facial_landmarks := ["placeholder"]
            style_presentation := ["placeholder"]
            vibe_tags := ["placeholder"] }
        preference_model :=
          { ideal_vector := ideal_vector_of feat ratings
            mandatory_traits :=
              (detect_triggers (liked_of feat ratings) (disliked_of feat ratings)).1
            negative_traits :=
              (detect_triggers (liked_of feat ratings) (disliked_of feat ratings)).2
            calibration_confidence := calculate_confidence (ratings.map (fun p => p.2)) } }

/-! ## The artifact store (`save_vector` / `load_vector`) -/

/-- The per-user artifact store: the profiles directory, one
`p1_visual_vector.json` per user id.  The JSON round trip is exact on
the stored data (`json.dump` writes `repr`-faithful floats), so the
store is modelled at artifact granularity. -/
def Store : Type := String → Option VectorData

/-- Embedding of `VisualService.save_vector` (`visual_service.py`,
lines 309-327): overwrite the artifact of `user_id`, leaving every
other user untouched. -/
def save_vector (store : Store) (user_id : String) (v : VectorData) : Store :=
  fun u => if u = user_id then some v else store u

/-- Embedding of `VisualService.load_vector` (`visual_service.py`,
lines 329-343): the stored artifact, or `none` when the user has no
persisted artifact. -/
def load_vector (store : Store) (user_id : String) : Option VectorData :=
  store user_id

/-- The full `calibrate_user` call including its final `save_vector`
(line 275): the store is written only when the computation reached the
end without an error. -/
def calibrate_and_save (L : DynamicLearner) (feat : String → ℤ → List ℚ)
    (now : String) (store : Store) (user_id : String)
    (ratings : List (String × ℤ)) (gender preference_target : Option String) :
    Except String VectorData × Store :=
  match calibrate_user L feat now user_id ratings gender preference_target with
  | Except.error e => (Except.error e, store)
  | Except.ok v => (Except.ok v, save_vector store user_id v)

/-! ## Coordinatewise lemmas about the vector operations -/

theorem vecAdd_length (a b : List ℚ) : (vecAdd a b).length = min a.length b.length := by
  simp [vecAdd]

theorem vecSmul_length (c : ℚ) (v : List ℚ) : (vecSmul c v).length = v.length := by
  simp [vecSmul]

theorem nth_vecAdd (a b : List ℚ) (j : ℕ) (ha : j < a.length) (hb : j < b.length) :
    nth (vecAdd a b) j = nth a j + nth b j := by
  induction a generalizing b j with
  | nil => simp at ha
  | cons x xs ih =>
    cases b with
    | nil => simp at hb
    | cons y ys =>
      cases j with
      | zero => simp [vecAdd, nth]
      | succ k =>
        have := ih ys k (by simpa using ha) (by simpa using hb)
        simpa [vecAdd, nth] using this

theorem nth_vecSmul (c : ℚ) (v : List ℚ) (j : ℕ) (h : j < v.length) :
    nth (vecSmul c v) j = c * nth v j := by
  induction v generalizing j with
  | nil => simp at h
  | cons x xs ih =>
    cases j with
    | zero => simp [vecSmul, nth]
    | succ k =>
      have := ih k (by simpa using h)
      simpa [vecSmul, nth] using this

theorem nth_map (f : ℚ → ℚ) (v : List ℚ) (j : ℕ) (h : j < v.length) :
    nth (v.map f) j = f (nth v j) := by
  induction v generalizing j with
  | nil => simp at h
  | cons x xs ih =>
    cases j with
    | zero => simp [nth]
    | succ k =>
      have := ih k (by simpa using h)
      simpa [nth] using this

theorem stackSum_singleton (v : List ℚ) : stackSum [v] = v := rfl

theorem stackSum_cons (v : List ℚ) (vs : List (List ℚ)) (h : vs ≠ []) :
    stackSum (v :: vs) = vecAdd v (stackSum vs) := by
  cases vs with
  | nil => exact absurd rfl h
  | cons w ws => rfl

theorem stackSum_length (vs : List (List ℚ)) (d : ℕ)
    (hd : ∀ v ∈ vs, v.length = d) (hne : vs ≠ []) : (stackSum vs).length = d := by
  induction vs with
  | nil => exact absurd rfl hne
  | cons v ws ih =>
    cases ws with
    | nil => simpa [stackSum_singleton] using hd v (by simp)
    | cons w ws2 =>
      rw [stackSum_cons _ _ (by simp), vecAdd_length,
        ih (fun u hu => hd u (List.mem_cons_of_mem v hu)) (by simp)]
      have hv : v.length = d := hd v (by simp)
      omega

theorem nth_stackSum (vs : List (List ℚ)) (d j : ℕ)
    (hd : ∀ v ∈ vs, v.length = d) (hj : j < d) :
    nth (stackSum vs) j = (vs.map (fun v => nth v j)).sum := by
  induction vs with
  | nil => simp [stackSum, nth]
  | cons v ws ih =>
    cases ws with
    | nil => simp [stackSum_singleton]
    | cons w ws2 =>
      have hws : ∀ u ∈ w :: ws2, u.length = d :=
        fun u hu => hd u (List.mem_cons_of_mem v hu)
      rw [stackSum_cons _ _ (by simp),
        nth_vecAdd _ _ j (by rw [hd v (by simp)]; exact hj)
          (by rw [stackSum_length _ d hws (by simp)]; exact hj),
        ih hws]
      simp

theorem zipWith_map_same {α β γ δ : Type} (f : β → γ → δ) (g : α → β) (h : α → γ)
    (l : List α) :
    List.zipWith f (l.map g) (l.map h) = l.map (fun x => f (g x) (h x)) := by
  induction l with
  | nil => rfl
  | cons a l ih => simp [ih]

theorem aggregate_eq_map (feat : String → ℤ → List ℚ) (ratings : List (String × ℤ)) :
    aggregate feat ratings =
      (stackSum (ratings.map (fun p => vecSmul (weight p.2) (feat p.1 p.2)))).map
        (fun a => a / ((weights_of ratings).sum + eps)) := by
  rw [aggregate, weights_of, features_of, zipWith_map_same]

/-- C2: each image weight is `(rating - 1)/4` (so `1 ↦ 0`, `3 ↦ 1/2`,
`5 ↦ 1`), and the aggregated preference signal is, coordinate by
coordinate, the sum of weight-times-feature over every rated image
(liked, disliked and neutral alike) divided by the sum of the weights
plus the epsilon `1e-8`. -/
theorem C2_weighted_aggregation (feat : String → ℤ → List ℚ)
    (ratings : List (String × ℤ)) (d j : ℕ)
    (hne : ratings ≠ [])
    (hval : ∀ p ∈ ratings, 1 ≤ p.2 ∧ p.2 ≤ 5)
    (hlen : ∀ p ∈ ratings, (feat p.1 p.2).length = d)
    (hj : j < d) :
    weight 1 = 0 ∧ weight 3 = 1 / 2 ∧ weight 5 = 1 ∧
    (aggregate feat ratings).length = d ∧
    nth (aggregate feat ratings) j =
      (ratings.map (fun p => weight p.2 * nth (feat p.1 p.2) j)).sum
        / ((ratings.map (fun p => weight p.2)).sum + eps) := by
  have hmap : ∀ v ∈ ratings.map (fun p => vecSmul (weight p.2) (feat p.1 p.2)),
      v.length = d := by
    intro v hv
    obtain ⟨p, hp, rfl⟩ := List.mem_map.mp hv
    rw [vecSmul_length]
    exact hlen p hp
  have hmapne : ratings.map (fun p => vecSmul (weight p.2) (feat p.1 p.2)) ≠ [] := by
    simpa using hne
  have hsl : (stackSum (ratings.map (fun p => vecSmul (weight p.2) (feat p.1 p.2)))).length
      = d := stackSum_length _ d hmap hmapne
  refine ⟨by norm_num [weight], by norm_num [weight], by norm_num [weight], ?_, ?_⟩
  · rw [aggregate_eq_map]
    simp [hsl]
  · rw [aggregate_eq_map, nth_map _ _ j (by rw [hsl]; exact hj),
      nth_stackSum _ d j hmap hj, List.map_map]
    have hcong :
        ratings.map ((fun v => nth v j) ∘ fun p => vecSmul (weight p.2) (feat p.1 p.2)) =
        ratings.map (fun p => weight p.2 * nth (feat p.1 p.2) j) := by
      apply List.map_congr_left
      intro p hp
      simp only [Function.comp]
      exact nth_vecSmul _ _ j (by rw [hlen p hp]; exact hj)
    rw [hcong, weights_of]

/-- Shared concrete feature resolver: image features of width 1, the
single coordinate determined by the rating. -/
def feat1 : String → ℤ → List ℚ := fun _ r => [(r : ℚ)]

/-- Witness for C2 at `feat1` and the ratings `[("a", 1), ("b", 5)]`. -/
theorem C2_weighted_aggregation_witness :
    weight 1 = 0 ∧ weight 3 = 1 / 2 ∧ weight 5 = 1 ∧
    (aggregate feat1 [("a", 1), ("b", 5)]).length = 1 ∧
    nth (aggregate feat1 [("a", 1), ("b", 5)]) 0 =
      (([("a", 1), ("b", 5)] : List (String × ℤ)).map
          (fun p => weight p.2 * nth (feat1 p.1 p.2) 0)).sum
        / ((([("a", 1), ("b", 5)] : List (String × ℤ)).map (fun p => weight p.2)).sum + eps) :=
  C2_weighted_aggregation feat1 [("a", 1), ("b", 5)] 1 0 (by decide)
    (by decide) (by decide) (by decide)

/-! ## Shared concrete instances for witnesses and counterexamples -/

/-- A `DynamicLearner` with empty layers (shapes are irrelevant for the
claims that use it). -/
def demoL : DynamicLearner := ⟨512, 1, ⟨[], []⟩, ⟨[], []⟩⟩

/-- A well-formed `DynamicLearner`: `lin2` has `512 * 1 + 1 = 513` rows
and biases. -/
def demoL512 : DynamicLearner :=
  ⟨512, 1, ⟨[], []⟩, ⟨List.replicate 513 [], List.replicate 513 0⟩⟩

/-- A torch RNG model returning the seed itself as a 1-entry vector. -/
def randn0 : ℤ → List ℚ := fun s => [(s : ℚ)]

/-- A torch RNG model with constant 512-entry output. -/
def randn512 : ℤ → List ℚ := fun _ => List.replicate 512 0

/-- A process hash state mapping every string to `0`. -/
def hashA : String → ℤ := fun _ => 0

/-- A different process hash state, mapping every string to `1`. -/
def hashB : String → ℤ := fun _ => 1

/-- The empty artifact store. -/
def emptyStore : Store := fun _ => none

/-- A concrete artifact. -/
def sampleVector : VectorData :=
  { meta :=
      { user_id := "u1", gender := "unspecified", preference_target := "unspecified",
        calibration_timestamp := "2024-01-01T00:00:00Z", images_rated := 1 }
    self_analysis :=
      { embedding_vector := [], facial_landmarks := ["placeholder"],
        style_presentation := ["placeholder"], vibe_tags := ["placeholder"] }
    preference_model :=
      { ideal_vector := [], mandatory_traits := ["placeholder_positive_trait"],
        negative_traits := ["placeholder_negative_trait"], calibration_confidence := 1 / 2 } }

/-! ## Evaluation of `calibrate_user` on non-empty input -/

theorem isEmpty_false_of_ne_nil {α : Type} {l : List α} (h : l ≠ []) :
    l.isEmpty = false := by
  cases l with
  | nil => exact absurd rfl h
  | cons a t => rfl

theorem features_isEmpty_false (feat : String → ℤ → List ℚ)
    (ratings : List (String × ℤ)) (h : ratings ≠ []) :
    (features_of feat ratings).isEmpty = false := by
  cases ratings with
  | nil => exact absurd rfl h
  | cons a t => rfl

/-- On a non-empty ratings list neither error branch fires and the
artifact is the assembled record. -/
theorem calibrate_user_eq_ok (L : DynamicLearner) (feat : String → ℤ → List ℚ)
    (now : String) (uid : String) (ratings : List (String × ℤ))
    (g p : Option String) (hne : ratings ≠ []) :
    calibrate_user L feat now uid ratings g p = Except.ok
      { meta :=
          { user_id := uid
            gender := g.getD "unspecified"
            preference_target := p.getD "unspecified"
            calibration_timestamp := now
            images_rated := ratings.length }
        self_analysis :=
          { embedding_vector := L.get_user_weights (aggregate feat ratings)
            facial_landmarks := ["placeholder"]
            style_presentation := ["placeholder"]
            vibe_tags := ["placeholder"] }
        preference_model :=
          { ideal_vector := ideal_vector_of feat ratings
            mandatory_traits :=
              (detect_triggers (liked_of feat ratings) (disliked_of feat ratings)).1
            negative_traits :=
              (detect_triggers (liked_of feat ratings) (disliked_of feat ratings)).2
            calibration_confidence := calculate_confidence (ratings.map (fun q => q.2)) } } := by
  rw [calibrate_user]
  simp [isEmpty_false_of_ne_nil hne, features_isEmpty_false feat ratings hne]

/-! ## C3: the Demo Fallback -/

/-- C3 counterexample: with the same torch RNG model but two interpreter
hash states (CPython salts `hash` on `str` per process unless
`PYTHONHASHSEED` is fixed, so distinct states across restarts are
admissible), the generator returns different vectors for the same image
id and the same rating — the output is not stable across process
restarts. -/
theorem C3_counterexample :
    generate_demo_features randn0 hashA "demo_1" 3 ≠
      generate_demo_features randn0 hashB "demo_1" 3 := by
  decide

/-- C3 (amended): within one process — one interpreter hash state and
one torch RNG stream — the Demo Fallback is a pure deterministic
function of the image id alone: the rating argument never affects the
output, the vector equals the seeded draw at `hash(id) % 2**32`, and it
has 512 entries whenever the RNG model draws 512-entry vectors. -/
theorem C3_demo_features_deterministic (randn : ℤ → List ℚ) (pyHash : String → ℤ)
    (image_id : String) (r1 r2 : ℤ)
    (hlen : ∀ s, (randn s).length = 512) :
    generate_demo_features randn pyHash image_id r1 =
      generate_demo_features randn pyHash image_id r2 ∧
    generate_demo_features randn pyHash image_id r1 =
      randn (pyHash image_id % 2 ^ 32) ∧
    (generate_demo_features randn pyHash image_id r1).length = 512 :=
  ⟨rfl, rfl, hlen _⟩

/-- Witness for C3 at the constant 512-entry RNG model and hash state
`hashA`, with ratings 1 and 5. -/
theorem C3_demo_features_deterministic_witness :
    generate_demo_features randn512 hashA "demo_1" 1 =
      generate_demo_features randn512 hashA "demo_1" 5 ∧
    generate_demo_features randn512 hashA "demo_1" 1 =
      randn512 (hashA "demo_1" % 2 ^ 32) ∧
    (generate_demo_features randn512 hashA "demo_1" 1).length = 512 :=
  C3_demo_features_deterministic randn512 hashA "demo_1" 1 5
    (fun s => List.length_replicate 512 0)

/-! ## C7: repeated calibration in demo mode -/

/-- Projection forgetting the `calibration_timestamp` field. -/
def eraseTimestamp (v : VectorData) : VectorData :=
  { v with meta := { v.meta with calibration_timestamp := "" } }

theorem calibrate_and_save_error (L : DynamicLearner) (feat : String → ℤ → List ℚ)
    (now : String) (store : Store) (uid : String) (ratings : List (String × ℤ))
    (g p : Option String) (e : String)
    (h : calibrate_user L feat now uid ratings g p = Except.error e) :
    calibrate_and_save L feat now store uid ratings g p = (Except.error e, store) := by
  unfold calibrate_and_save
  rw [h]

theorem calibrate_and_save_ok (L : DynamicLearner) (feat : String → ℤ → List ℚ)
    (now : String) (store : Store) (uid : String) (ratings : List (String × ℤ))
    (g p : Option String) (v : VectorData)
    (h : calibrate_user L feat now uid ratings g p = Except.ok v) :
    calibrate_and_save L feat now store uid ratings g p =
      (Except.ok v, save_vector store uid v) := by
  unfold calibrate_and_save
  rw [h]

/-- C7 counterexample: two sequential calibrate calls with the same
user and ratings observe different clock values, and the resulting
artifacts differ (in `meta.calibration_timestamp`), so they are not
bit-for-bit identical. -/
theorem C7_counterexample :
    calibrate_user demoL feat1 "2024-01-01T00:00:00Z" "u1" [("demo_1", 3)] none none ≠
      calibrate_user demoL feat1 "2024-01-01T00:00:01Z" "u1" [("demo_1", 3)] none none := by
  intro h
  have h2 := congrArg (Except.map (fun a => a.meta.calibration_timestamp)) h
  rw [show (calibrate_user demoL feat1 "2024-01-01T00:00:00Z" "u1" [("demo_1", 3)]
        none none).map (fun a => a.meta.calibration_timestamp) =
      Except.ok "2024-01-01T00:00:00Z" from rfl,
    show (calibrate_user demoL feat1 "2024-01-01T00:00:01Z" "u1" [("demo_1", 3)]
        none none).map (fun a => a.meta.calibration_timestamp) =
      Except.ok "2024-01-01T00:00:01Z" from rfl] at h2
  injection h2 with h3
  exact absurd h3 (by decide)

/-- C7 (amended): in demo mode two sequential identical calibrate calls
produce artifacts that agree on every field of the `meta`,
`self_analysis` and `preference_model` blocks except
`meta.calibration_timestamp`, which records each call's own clock
reading (all other randomness is fixed by the image-id-seeded feature
resolution, so the remaining data coincides bit for bit). -/
theorem C7_idempotent_up_to_timestamp (L : DynamicLearner)
    (feat : String → ℤ → List ℚ) (t1 t2 uid : String)
    (ratings : List (String × ℤ)) (g p : Option String) :
    (calibrate_user L feat t1 uid ratings g p).map eraseTimestamp =
      (calibrate_user L feat t2 uid ratings g p).map eraseTimestamp := by
  unfold calibrate_user
  cases hc : ratings.isEmpty
  · cases hc2 : (features_of feat ratings).isEmpty
    · simp only [hc, hc2, Bool.false_eq_true, if_false]
      rfl
    · simp only [hc, hc2, Bool.false_eq_true, if_false, if_true]
  · simp only [hc, if_true]

/-! ## C6: atomicity of calibrate with respect to the store -/

/-- C6: every error exit of calibrate leaves the artifact store
untouched (in particular the empty-ratings validation error), and the
store is written exactly when the full computation succeeded. -/
theorem C6_atomic_persistence (L : DynamicLearner) (feat : String → ℤ → List ℚ)
    (now : String) (store : Store) (uid : String) (ratings : List (String × ℤ))
    (g p : Option String) :
    (ratings = [] →
      (calibrate_and_save L feat now store uid ratings g p).1 =
          Except.error "No ratings provided for calibration" ∧
        (calibrate_and_save L feat now store uid ratings g p).2 = store) ∧
    (∀ e, (calibrate_and_save L feat now store uid ratings g p).1 = Except.error e →
      (calibrate_and_save L feat now store uid ratings g p).2 = store) ∧
    (∀ v, (calibrate_and_save L feat now store uid ratings g p).1 = Except.ok v →
      (calibrate_and_save L feat now store uid ratings g p).2 = save_vector store uid v) := by
  refine ⟨?_, ?_, ?_⟩
  · rintro rfl
    have hres : calibrate_user L feat now uid [] g p =
        Except.error "No ratings provided for calibration" := rfl
    rw [calibrate_and_save_error L feat now store uid [] g p _ hres]
    exact ⟨rfl, rfl⟩
  · intro e he
    cases hres : calibrate_user L feat now uid ratings g p with
    | error e2 => rw [calibrate_and_save_error L feat now store uid ratings g p e2 hres]
    | ok v2 =>
      rw [calibrate_and_save_ok L feat now store uid ratings g p v2 hres] at he
      exact Except.noConfusion he
  · intro v hv
    cases hres : calibrate_user L feat now uid ratings g p with
    | error e2 =>
      rw [calibrate_and_save_error L feat now store uid ratings g p e2 hres] at hv
      exact Except.noConfusion hv
    | ok w =>
      rw [calibrate_and_save_ok L feat now store uid ratings g p w hres] at hv ⊢
      have hv2 : w = v := Except.ok.inj hv
      rw [← hv2]

/-- Witness for C6 at the empty ratings mapping: the validation error is
returned and the store is unchanged. -/
theorem C6_atomic_persistence_witness :
    (calibrate_and_save demoL feat1 "t" emptyStore "u1" [] none none).1 =
        Except.error "No ratings provided for calibration" ∧
      (calibrate_and_save demoL feat1 "t" emptyStore "u1" [] none none).2 = emptyStore :=
  (C6_atomic_persistence demoL feat1 "t" emptyStore "u1" [] none none).1 rfl

/-! ## C8: artifact store round trip -/

/-- C8: `save` then `load` for the same user returns the artifact
unchanged, and `load` for a user with no persisted artifact returns the
explicit not-found result `none`, never a default artifact. -/
theorem C8_store_roundtrip (store : Store) (uid : String) (v : VectorData)
    (hnone : store uid = none) :
    load_vector (save_vector store uid v) uid = some v ∧
    load_vector store uid = none := by
  constructor
  · simp [load_vector, save_vector]
  · simpa [load_vector] using hnone

/-- Witness for C8 at the empty store and a concrete artifact. -/
theorem C8_store_roundtrip_witness :
    load_vector (save_vector emptyStore "u1" sampleVector) "u1" = some sampleVector ∧
    load_vector emptyStore "u1" = none :=
  C8_store_roundtrip emptyStore "u1" sampleVector rfl

/-! ## C10: the defensive error branch is unreachable -/

/-- C10: with a non-empty ratings mapping every entry resolves to a
feature (real extraction or demo fallback are both total), so the
features list has one entry per rating, the defensive
"No valid ratings for calibration" branch never fires, and calibrate
returns an artifact. -/
theorem C10_defensive_branch_unreachable (L : DynamicLearner)
    (feat : String → ℤ → List ℚ) (now uid : String)
    (ratings : List (String × ℤ)) (g p : Option String)
    (hne : ratings ≠ []) :
    (features_of feat ratings).length = ratings.length ∧
    calibrate_user L feat now uid ratings g p ≠
      Except.error "No valid ratings for calibration" ∧
    ∃ v, calibrate_user L feat now uid ratings g p = Except.ok v := by
  refine ⟨by simp [features_of], ?_, ?_⟩
  · rw [calibrate_user_eq_ok L feat now uid ratings g p hne]
    simp
  · exact ⟨_, calibrate_user_eq_ok L feat now uid ratings g p hne⟩

/-- Witness for C10 at a concrete one-element ratings mapping. -/
theorem C10_defensive_branch_unreachable_witness :
    (features_of feat1 [("demo_1", 3)]).length = 1 ∧
    calibrate_user demoL feat1 "t" "u1" [("demo_1", 3)] none none ≠
      Except.error "No valid ratings for calibration" ∧
    ∃ v, calibrate_user demoL feat1 "t" "u1" [("demo_1", 3)] none none = Except.ok v :=
  C10_defensive_branch_unreachable demoL feat1 "t" "u1" [("demo_1", 3)] none none
    (by decide)

/-! ## C4: the ideal vector -/

/-- C4: the artifact's `ideal_vector` is empty exactly when no rating
is `>= 4`; otherwise it is, coordinate by coordinate, the unweighted
mean of the features of precisely the images rated `>= 4`. -/
theorem C4_ideal_vector (L : DynamicLearner) (feat : String → ℤ → List ℚ)
    (now uid : String) (ratings : List (String × ℤ)) (g p : Option String)
    (d j : ℕ) (hne : ratings ≠ []) (hd : 0 < d)
    (hval : ∀ q ∈ ratings, 1 ≤ q.2 ∧ q.2 ≤ 5)
    (hlen : ∀ q ∈ ratings, (feat q.1 q.2).length = d) (hj : j < d) :
    (calibrate_user L feat now uid ratings g p).map
        (fun a => a.preference_model.ideal_vector) =
      Except.ok (ideal_vector_of feat ratings) ∧
    (ideal_vector_of feat ratings = [] ↔ ∀ q ∈ ratings, q.2 < 4) ∧
    (ratings.filter (fun q => 4 ≤ q.2) ≠ [] →
      nth (ideal_vector_of feat ratings) j =
        ((ratings.filter (fun q => 4 ≤ q.2)).map (fun q => nth (feat q.1 q.2) j)).sum
          / ((ratings.filter (fun q => 4 ≤ q.2)).length : ℚ)) := by
  have hlik : liked_of feat ratings =
      (ratings.filter (fun q => 4 ≤ q.2)).map (fun q => feat q.1 q.2) := rfl
  have hlenliked : ∀ v ∈ liked_of feat ratings, v.length = d := by
    intro v hv
    rw [hlik] at hv
    obtain ⟨q, hq, rfl⟩ := List.mem_map.mp hv
    exact hlen q (List.mem_of_mem_filter hq)
  have hiff1 : ideal_vector_of feat ratings = [] ↔
      ratings.filter (fun q => 4 ≤ q.2) = [] := by
    unfold ideal_vector_of
    constructor
    · intro h
      by_cases hf : ratings.filter (fun q => 4 ≤ q.2) = []
      · exact hf
      · exfalso
        have hlne : liked_of feat ratings ≠ [] := by
          rw [hlik]
          simpa using hf
        rw [if_neg (by simp [isEmpty_false_of_ne_nil hlne])] at h
        have h0 : (stackMean (liked_of feat ratings)).length = d := by
          rw [stackMean, List.length_map, stackSum_length _ d hlenliked hlne]
        rw [h] at h0
        simp at h0
        omega
    · intro hf
      have : (liked_of feat ratings).isEmpty = true := by
        rw [hlik, hf]
        rfl
      rw [if_pos this]
  refine ⟨?_, ?_, ?_⟩
  · rw [calibrate_user_eq_ok L feat now uid ratings g p hne]
    rfl
  · rw [hiff1, List.filter_eq_nil_iff]
    constructor
    · intro h q hq
      have := h q hq
      simp at this
      omega
    · intro h q hq
      have := h q hq
      simp
      omega
  · intro hf
    have hlne : liked_of feat ratings ≠ [] := by
      rw [hlik]
      simpa using hf
    have hie : (liked_of feat ratings).isEmpty = false := isEmpty_false_of_ne_nil hlne
    unfold ideal_vector_of
    rw [if_neg (by simp [hie])]
    have hssl : (stackSum (liked_of feat ratings)).length = d :=
      stackSum_length _ d hlenliked hlne
    rw [stackMean, nth_map _ _ j (by rw [hssl]; exact hj),
      nth_stackSum _ d j hlenliked hj, hlik, List.map_map, List.length_map]
    rfl

/-- Witness for C4 at `feat1` and the ratings `[("a", 1), ("b", 5)]`
(one liked image). -/
theorem C4_ideal_vector_witness :
    (calibrate_user demoL feat1 "t" "u1" [("a", 1), ("b", 5)] none none).map
        (fun a => a.preference_model.ideal_vector) =
      Except.ok (ideal_vector_of feat1 [("a", 1), ("b", 5)]) ∧
    (ideal_vector_of feat1 [("a", 1), ("b", 5)] = [] ↔
      ∀ q ∈ ([("a", 1), ("b", 5)] : List (String × ℤ)), q.2 < 4) ∧
    nth (ideal_vector_of feat1 [("a", 1), ("b", 5)]) 0 =
      ((([("a", 1), ("b", 5)] : List (String × ℤ)).filter (fun q => 4 ≤ q.2)).map
          (fun q => nth (feat1 q.1 q.2) 0)).sum
        / ((([("a", 1), ("b", 5)] : List (String × ℤ)).filter (fun q => 4 ≤ q.2)).length : ℚ) :=
  have h := C4_ideal_vector demoL feat1 "t" "u1" [("a", 1), ("b", 5)] none none 1 0
    (by decide) (by decide) (by decide) (by decide) (by decide)
  ⟨h.1, h.2.1, h.2.2 (by decide)⟩

/-! ## C5: the user embedding -/

theorem LinearLayer.apply_length (l : LinearLayer) (x : List ℚ) :
    (l.apply x).length = min l.weight.length l.bias.length := by
  simp [LinearLayer.apply]

theorem generator_length (L : DynamicLearner) (x : List ℚ) :
    (L.generator x).length = min L.lin2.weight.length L.lin2.bias.length := by
  rw [DynamicLearner.generator, LinearLayer.apply_length]

/-- C5: for a well-formed learner, the artifact's `embedding_vector` is
the generated-weights slice (first `in_dim` entries of the generator
output, whose full length is `in_dim * out_dim + out_dim`, the final
`out_dim` bias entries being discarded), it has exactly 512 entries,
and `meta.images_rated` is the number of entries of the ratings
mapping. -/
theorem C5_embedding_shape (L : DynamicLearner) (feat : String → ℤ → List ℚ)
    (now uid : String) (ratings : List (String × ℤ)) (g p : Option String)
    (hwf : L.wellFormed) (hne : ratings ≠ []) :
    (calibrate_user L feat now uid ratings g p).map
        (fun a => a.self_analysis.embedding_vector) =
      Except.ok ((L.generator (aggregate feat ratings)).take L.in_dim) ∧
    (L.generator (aggregate feat ratings)).length =
      L.in_dim * L.out_dim + L.out_dim ∧
    (calibrate_user L feat now uid ratings g p).map
        (fun a => a.self_analysis.embedding_vector.length) = Except.ok 512 ∧
    (calibrate_user L feat now uid ratings g p).map
        (fun a => a.meta.images_rated) = Except.ok ratings.length := by
  obtain ⟨h1, h2, h3, h4⟩ := hwf
  have hgl : (L.generator (aggregate feat ratings)).length =
      L.in_dim * L.out_dim + L.out_dim := by
    rw [generator_length, h3, h4]
    omega
  have htake : (L.get_user_weights (aggregate feat ratings)).length = 512 := by
    rw [DynamicLearner.get_user_weights, List.length_take, hgl, h1, h2]
    omega
  refine ⟨?_, hgl, ?_, ?_⟩
  · rw [calibrate_user_eq_ok L feat now uid ratings g p hne]
    rfl
  · rw [calibrate_user_eq_ok L feat now uid ratings g p hne]
    exact congrArg Except.ok htake
  · rw [calibrate_user_eq_ok L feat now uid ratings g p hne]
    rfl

/-- Witness for C5 at the well-formed learner `demoL512`. -/
theorem C5_embedding_shape_witness :
    (calibrate_user demoL512 feat1 "t" "u1" [("demo_1", 3)] none none).map
        (fun a => a.self_analysis.embedding_vector) =
      Except.ok ((demoL512.generator (aggregate feat1 [("demo_1", 3)])).take
        demoL512.in_dim) ∧
    (demoL512.generator (aggregate feat1 [("demo_1", 3)])).length =
      demoL512.in_dim * demoL512.out_dim + demoL512.out_dim ∧
    (calibrate_user demoL512 feat1 "t" "u1" [("demo_1", 3)] none none).map
        (fun a => a.self_analysis.embedding_vector.length) = Except.ok 512 ∧
    (calibrate_user demoL512 feat1 "t" "u1" [("demo_1", 3)] none none).map
        (fun a => a.meta.images_rated) = Except.ok 1 :=
  C5_embedding_shape demoL512 feat1 "t" "u1" [("demo_1", 3)] none none
    ⟨rfl, rfl,
      by
        rw [show demoL512.lin2.weight.length = (List.replicate 513 ([] : List ℚ)).length
            from rfl, List.length_replicate]
        rfl,
      by
        rw [show demoL512.lin2.bias.length = (List.replicate 513 (0 : ℚ)).length
            from rfl, List.length_replicate]
        rfl⟩
    (by decide)

/-! ## C9: `get_calibration_images` (`visual_service.py`, lines 345-376) -/

/-- Lexicographic code-point comparison of character lists; Python
compares strings exactly this way. -/
def charListLe : List Char → List Char → Bool
  | [], _ => true
  | _ :: _, [] => false
  | a :: as, b :: bs =>
    if a.toNat < b.toNat then true
    else if b.toNat < a.toNat then false
    else charListLe as bs

/-- Python string `<=`, used by `sorted` on filenames. -/
def nameLe (a b : String) : Bool := charListLe a.data b.data

/-- The ordering relation of `sorted`. -/
def nameRel : String → String → Prop := fun a b => nameLe a b = true

instance : DecidableRel nameRel :=
  fun a b => inferInstanceAs (Decidable (nameLe a b = true))

theorem charListLe_total (a b : List Char) :
    charListLe a b = true ∨ charListLe b a = true := by
  induction a generalizing b with
  | nil => left; rfl
  | cons x xs ih =>
    cases b with
    | nil => right; rfl
    | cons y ys =>
      by_cases h1 : x.toNat < y.toNat
      · left
        simp [charListLe, h1]
      · by_cases h2 : y.toNat < x.toNat
        · right
          simp [charListLe, h2]
        · cases ih ys with
          | inl h => left; simp [charListLe, h1, h2, h]
          | inr h => right; simp [charListLe, h1, h2, h]

theorem charListLe_trans (a b c : List Char) (hab : charListLe a b = true)
    (hbc : charListLe b c = true) : charListLe a c = true := by
  induction a generalizing b c with
  | nil => rfl
  | cons x xs ih =>
    cases b with
    | nil => simp [charListLe] at hab
    | cons y ys =>
      cases c with
      | nil => simp [charListLe] at hbc
      | cons z zs =>
        simp only [charListLe] at hab hbc ⊢
        by_cases hxy : x.toNat < y.toNat
        · by_cases hyz : y.toNat < z.toNat
          · simp [show x.toNat < z.toNat by omega]
          · by_cases hzy : z.toNat < y.toNat
            · simp [hyz, hzy] at hbc
            · simp [show x.toNat < z.toNat by omega]
        · by_cases hyx : y.toNat < x.toNat
          · simp [hxy, hyx] at hab
          · by_cases hyz : y.toNat < z.toNat
            · simp [show x.toNat < z.toNat by omega]
            · by_cases hzy : z.toNat < y.toNat
              · simp [hyz, hzy] at hbc
              · have hxz : ¬ x.toNat < z.toNat := by omega
                have hzx : ¬ z.toNat < x.toNat := by omega
                simp only [hxy, hyx, if_false, if_neg hxy, if_neg hyx] at hab
                simp only [if_neg hyz, if_neg hzy] at hbc
                simp only [if_neg hxz, if_neg hzx]
                exact ih ys zs hab hbc

instance : IsTotal String nameRel :=
  ⟨fun a b => charListLe_total a.data b.data⟩

instance : IsTrans String nameRel :=
  ⟨fun a b c => charListLe_trans a.data b.data c.data⟩

/-- The glob pattern `*.[jp][pn][g]` of line 360: any name whose last
four characters are a dot, then one of `j`/`p`, one of `p`/`n`, and
`g` (`pathlib` globbing also matches names with a leading dot). -/
def globMatch (name : String) : Bool :=
  match name.data.reverse with
  | c3 :: c2 :: c1 :: c0 :: _ =>
    c0 == '.' && (c1 == 'j' || c1 == 'p') && (c2 == 'p' || c2 == 'n') && c3 == 'g'
  | _ => false

/-- `Path.stem` of a glob-matched name: the part before the final
4-character suffix, except that a bare `".xyz"` keeps the whole name
(`pathlib` derives `suffix` only from a dot at positive index). -/
def matchedStem (name : String) : String :=
  if name.length = 4 then name else name.dropRight 4

/-- One entry of the calibration image listing. -/
structure CalibImage where
  id : String
  filename : String
  url : String
deriving DecidableEq

/-- The demo placeholder entry for index `i` (1-based). -/
def demoImage (i : ℕ) : CalibImage :=
  { id := "demo_" ++ toString i
    filename := "demo_" ++ toString i ++ ".jpg"
    url := "https://picsum.photos/seed/" ++ toString i ++ "/400/500" }

/-- Embedding of `VisualService.get_calibration_images`
(`visual_service.py`, lines 345-376).  `dirExists` is
`calibration_dir.exists()` and `files` the directory's entries; Python
`sorted` is a stable ascending sort, modelled by insertion sort
(directory listings contain no duplicate names, so the two agree
extensionally). -/
def get_calibration_images (dirExists : Bool) (files : List String)
    (count : ℕ) : List CalibImage :=
  let real :=
    if dirExists then
      ((List.insertionSort nameRel (files.filter globMatch)).take count).map
        (fun n => { id := matchedStem n, filename := n,
                    url := "/api/calibration/images/" ++ n })
    else []
  if real.isEmpty then (List.range count).map (fun i => demoImage (i + 1)) else real

/-- C9: the listing has at most `count` entries; with matching files in
the calibration directory it is the first `count` filenames in sorted
order, each entry carrying the filename's stem as id (and the listing
is sorted by filename); with no matching file (or no directory) it is
exactly the `count` demo placeholders `demo_1 .. demo_count` with
external placeholder URLs. -/
theorem C9_calibration_images (dirExists : Bool) (files : List String) (count : ℕ) :
    (get_calibration_images dirExists files count).length ≤ count ∧
    (dirExists = true → files.filter globMatch ≠ [] →
      get_calibration_images dirExists files count =
        ((List.insertionSort nameRel (files.filter globMatch)).take count).map
          (fun n => { id := matchedStem n, filename := n,
                      url := "/api/calibration/images/" ++ n }) ∧
      List.Sorted nameRel ((get_calibration_images dirExists files count).map
        (fun img => img.filename))) ∧
    ((dirExists = false ∨ files.filter globMatch = []) →
      get_calibration_images dirExists files count =
        (List.range count).map (fun i => demoImage (i + 1))) := by
  cases dirExists with
  | false =>
    have hval : get_calibration_images false files count =
        (List.range count).map (fun i => demoImage (i + 1)) := by
      simp [get_calibration_images]
    refine ⟨?_, ?_, fun _ => hval⟩
    · rw [hval]
      simp
    · intro hd
      exact Bool.noConfusion hd
  | true =>
    by_cases hf : files.filter globMatch = []
    · have hval : get_calibration_images true files count =
          (List.range count).map (fun i => demoImage (i + 1)) := by
        simp [get_calibration_images, hf]
      refine ⟨?_, ?_, fun _ => hval⟩
      · rw [hval]
        simp
      · intro _ hne
        exact absurd hf hne
    · by_cases hc : count = 0
      · subst hc
        have hval : get_calibration_images true files 0 = [] := by
          simp [get_calibration_images]
        refine ⟨?_, ?_, ?_⟩
        · rw [hval]
          simp
        · intro _ _
          refine ⟨by rw [hval]; simp, by rw [hval]; simp⟩
        · intro _
          rw [hval]
          simp
      · have hSne : List.insertionSort nameRel (files.filter globMatch) ≠ [] := by
          intro h
          have hperm := List.perm_insertionSort nameRel (files.filter globMatch)
          rw [h] at hperm
          exact hf (hperm.symm.eq_nil)
        have hRne : ((List.insertionSort nameRel (files.filter globMatch)).take count).map
            (fun n => ({ id := matchedStem n, filename := n,
                         url := "/api/calibration/images/" ++ n } : CalibImage)) ≠ [] := by
          cases hS : List.insertionSort nameRel (files.filter globMatch) with
          | nil => exact absurd hS hSne
          | cons s0 S2 =>
            cases count with
            | zero => exact absurd rfl hc
            | succ k => simp
        have hval : get_calibration_images true files count =
            ((List.insertionSort nameRel (files.filter globMatch)).take count).map
              (fun n => { id := matchedStem n, filename := n,
                          url := "/api/calibration/images/" ++ n }) := by
          simp only [get_calibration_images, if_true]
          rw [if_neg]
          intro habs
          rw [List.isEmpty_iff] at habs
          exact hRne habs
        refine ⟨?_, ?_, ?_⟩
        · rw [hval, List.length_map, List.length_take]
          exact min_le_left _ _
        · intro _ _
          refine ⟨hval, ?_⟩
          rw [hval, List.map_map]
          have hmapid : ((fun (img : CalibImage) => img.filename) ∘
              (fun n => ({ id := matchedStem n, filename := n,
                           url := "/api/calibration/images/" ++ n } : CalibImage))) =
              fun (n : String) => n := by
            funext n
            rfl
          rw [hmapid, List.map_id']
          exact List.Pairwise.sublist (List.take_sublist _ _)
            (List.sorted_insertionSort nameRel _)
        · intro hor
          cases hor with
          | inl h => exact Bool.noConfusion h
          | inr h => exact absurd h hf

/-- Witness for C9 in both regimes: a directory with two matching
files at count 2, and the no-directory demo regime at count 2. -/
theorem C9_calibration_images_witness :
    (get_calibration_images true ["b.png", "a.jpg", "README.md"] 2).length ≤ 2 ∧
    (get_calibration_images true ["b.png", "a.jpg", "README.md"] 2 =
      ((List.insertionSort nameRel (["b.png", "a.jpg", "README.md"].filter globMatch)).take 2).map
        (fun n => { id := matchedStem n, filename := n,
                    url := "/api/calibration/images/" ++ n }) ∧
      List.Sorted nameRel ((get_calibration_images true ["b.png", "a.jpg", "README.md"] 2).map
        (fun img => img.filename))) ∧
    get_calibration_images false ["x.jpg"] 2 =
      (List.range 2).map (fun i => demoImage (i + 1)) :=
  have h1 := C9_calibration_images true ["b.png", "a.jpg", "README.md"] 2
  have h2 := C9_calibration_images false ["x.jpg"] 2
  ⟨h1.1, h1.2.1 rfl (by decide), h2.2.2 (Or.inl rfl)⟩

end VisualCalibration
